import Mathlib

/-!
Verification of the core string/audio pipeline of the Lecture Voice-to-Notes
Generator (`app.py`).  The definitions below are a shallow embedding of the
Python source: Python strings become Lean `String`s manipulated through their
character lists, Python `None`/exceptions become `Option`/`Except`, external
services (speech recognition, the summarizer, the caption API, the media
decoder) become explicit outcome parameters, and the file-system side effects
of `transcribe_audio` become an explicit state of existing temporary files.
-/

set_option maxRecDepth 4000

/-! ## Python string primitives used by `app.py` -/

/-- Embedding of Python `str.lower()` (the transcripts handled here are ASCII,
where `Char.toLower` agrees with Python). -/
def pyLower (s : String) : String :=
  String.mk (s.data.map Char.toLower)

/-- Embedding of Python `str.capitalize()`: first character uppercased, the
rest lowercased. -/
def pyCapitalize (s : String) : String :=
  match s.data with
  | [] => ""
  | c :: cs => String.mk (c.toUpper :: cs.map Char.toLower)

/-- Helper for `pySplitWs`: accumulates the current word (reversed) while
scanning; runs of whitespace produce no empty words, as in Python `split()`. -/
def splitWsAux : List Char → List Char → List String
  | [], acc => if acc.isEmpty then [] else [String.mk acc.reverse]
  | c :: cs, acc =>
    if c.isWhitespace then
      if acc.isEmpty then splitWsAux cs [] else String.mk acc.reverse :: splitWsAux cs []
    else splitWsAux cs (c :: acc)

/-- Embedding of Python `str.split()` with no argument: split on runs of
whitespace, dropping empty pieces. -/
def pySplitWs (s : String) : List String :=
  splitWsAux s.data []

/-- Embedding of Python `". ".join`-style splitting: `str.split(". ")`, the
separator used for bullet extraction.  Non-overlapping, left to right, keeps
empty fragments (as Python does for an explicit separator). -/
def splitDotSpAux : List Char → List Char → List String
  | '.' :: ' ' :: cs, acc => String.mk acc.reverse :: splitDotSpAux cs []
  | c :: cs, acc => splitDotSpAux cs (c :: acc)
  | [], acc => [String.mk acc.reverse]

/-- Embedding of Python `transcript.split(". ")`. -/
def splitDotSp (s : String) : List String :=
  splitDotSpAux s.data []

/-- Embedding of Python `str.strip()`: drop leading and trailing whitespace. -/
def pyStrip (s : String) : String :=
  String.mk (((s.data.dropWhile Char.isWhitespace).reverse.dropWhile Char.isWhitespace).reverse)

/-- Embedding of Python `" ".join(items)`. -/
def joinSp : List String → String
  | [] => ""
  | [x] => x
  | x :: y :: xs => x ++ " " ++ joinSp (y :: xs)

/-- Embedding of Python `"\n".join(items)`. -/
def joinNl : List String → String
  | [] => ""
  | [x] => x
  | x :: y :: xs => x ++ "\n" ++ joinNl (y :: xs)

/-- Embedding of Python `"\n\n".join(items)` (used to assemble the fixed quiz
template from its three question blocks). -/
def joinBlankLine : List String → String
  | [] => ""
  | [x] => x
  | x :: y :: xs => x ++ "\n\n" ++ joinBlankLine (y :: xs)

/-! ## `extract_video_id` (app.py lines 26-30)

Python: `re.search(r"(?:v=|\/)([0-9A-Za-z_-]{11})", url)`, returning
`match.group(1)` or `None`.  The embedding reproduces `re.search`: scan the
string left to right; at each position try the alternatives in order
(`v=` first, then `/`) and, on a match of the alternation, capture exactly the
next 11 identifier characters. -/

/-- The character class `[0-9A-Za-z_-]` of the video-id pattern. -/
def isIdChar (c : Char) : Bool :=
  c.isAlphanum || c = '_' || c = '-'

/-- Capture group `([0-9A-Za-z_-]{11})`: succeeds iff at least 11 characters
follow and the first 11 are all in the class, capturing those 11. -/
def grab11 (rest : List Char) : Option (List Char) :=
  if (rest.take 11).length = 11 ∧ (rest.take 11).all isIdChar then
    some (rest.take 11)
  else none

/-- Attempt the pattern `(?:v=|\/)([0-9A-Za-z_-]{11})` anchored at the head of
`cs`: the alternatives are tried in regex order (`v=` first, then `/`); they
can never both apply at one position since their first characters differ. -/
def matchVidAt (cs : List Char) : Option (List Char) :=
  if cs.take 2 = ['v', '='] then grab11 (cs.drop 2)
  else if cs.take 1 = ['/'] then grab11 (cs.drop 1)
  else none

/-- `re.search` scan: leftmost position whose anchored match succeeds. -/
def searchVidAux : List Char → Option (List Char)
  | [] => none
  | c :: cs =>
    match matchVidAt (c :: cs) with
    | some w => some w
    | none => searchVidAux cs

/-- Embedding of `extract_video_id` (app.py lines 26-30). -/
def extract_video_id (url : String) : Option String :=
  (searchVidAux url.data).map (fun w => String.mk w)

/-- Spec-side predicate for C6 (stated from the claim text, to be compared
with the behaviour of `extract_video_id`): the string contains a `v=` or `/`
prefix immediately followed by 11 characters drawn from the identifier
class. -/
def containsVidPattern (s : String) : Prop :=
  ∃ pre w suf,
    (s.data = pre ++ ['v', '='] ++ w ++ suf ∨ s.data = pre ++ ['/'] ++ w ++ suf) ∧
    w.length = 11 ∧ ∀ c ∈ w, isIdChar c

/-! ## `generate_ai_notes` (app.py lines 141-200)

The summarizer is an external model; its call on the truncated transcript is
passed in as an `Except` outcome (`Except.error` = the `except` branch of
lines 155-160).  Everything else (truncation, bullets, quiz) is pure string
code translated directly. -/

/-- `transcript` reassignment of app.py lines 151-153: if the transcript has
more than 900 whitespace-separated words, replace it with the space-join of
the first 900. -/
def truncateTranscript (t : String) : String :=
  let ws := pySplitWs t
  if 900 < ws.length then joinSp (ws.take 900) else t

/-- Helper for `dedupFirst`: keep a word only on its first occurrence,
tracking already-seen words. -/
def dedupFirstAux : List String → List String → List String
  | _, [] => []
  | seen, x :: xs =>
    if x ∈ seen then dedupFirstAux seen xs else x :: dedupFirstAux (x :: seen) xs

/-- Embedding of Python `set(...)` over a word list.  CPython set iteration
order is unspecified; following the pinning recommended by the design notes,
the embedding keeps first occurrences in insertion order.  Every claim settled
below is insensitive to the order of equal-length words. -/
def dedupFirst (l : List String) : List String :=
  dedupFirstAux [] l

/-- Stable insertion for a descending-by-length sort: a new word goes after
all previously placed words of greater or equal length. -/
def insertWordDesc (x : String) : List String → List String
  | [] => [x]
  | y :: ys => if x.length ≤ y.length then y :: insertWordDesc x ys else x :: y :: ys

/-- Embedding of Python `sorted(..., key=len, reverse=True)`: a stable sort,
descending by word length (Python sorting is stable). -/
def sortWordsDesc (l : List String) : List String :=
  l.foldl (fun acc x => insertWordDesc x acc) []

/-- The important-word computation of app.py line 168 applied to a given
string: `sorted(set(u.lower().split()), key=len, reverse=True)[:10]`. -/
def importantWordsOf (u : String) : List String :=
  (sortWordsDesc (dedupFirst (pySplitWs (pyLower u)))).take 10

/-- `important_words` as the code actually computes it: line 168 reads the
`transcript` variable, which lines 151-153 have already truncated. -/
def important_words (t : String) : List String :=
  importantWordsOf (truncateTranscript t)

/-- Number of distinct lowercased words of the (possibly truncated) transcript
that the quiz indexes into. -/
def distinctWordCount (t : String) : Nat :=
  (dedupFirst (pySplitWs (pyLower (truncateTranscript t)))).length

/-- Bullet extraction of app.py lines 163-164 applied to a given string:
`[s.strip() + '.' for s in u.split('. ')[:5] if len(s.strip()) > 20]`. -/
def keyPointsOf (u : String) : List String :=
  (((splitDotSp u).take 5).filter (fun s => 20 < (pyStrip s).length)).map
    (fun s => pyStrip s ++ ".")

/-- `key_points` as the code computes it (on the truncated transcript). -/
def key_points (t : String) : List String :=
  keyPointsOf (truncateTranscript t)

/-- Spec-side bullet computation for C5 (stated from the claim text, to be
compared with `keyPointsOf`): the first 5 fragments anywhere in the split
whose stripped length exceeds 20. -/
def specKeyPoints (u : String) : List String :=
  (((splitDotSp u).filter (fun s => 20 < (pyStrip s).length)).take 5).map
    (fun s => pyStrip s ++ ".")

/-- The `bullet_points` string of app.py line 165. -/
def bulletBlock (t : String) : String :=
  joinNl ((key_points t).map (fun point => "• " ++ point))

/-- The three question blocks of the fixed quiz template (app.py lines
169-186), with the four substituted option labels as parameters. -/
def quizItems (a b c d : String) : List String :=
  ["1. **What was the main topic discussed?**\n   - a) " ++ a ++ "\n   - b) " ++ b ++
     "\n   - c) General information\n   - **Answer: a**",
   "2. **Key concepts mentioned:**\n   - a) " ++ c ++ "\n   - b) " ++ d ++
     "\n   - c) Both of the above\n   - **Answer: c**",
   "3. **True or False: The transcript covered important details.**\n   - **Answer: True**"]

/-- The full `quiz_questions` f-string of app.py lines 169-186. -/
def mkQuiz (a b c d : String) : String :=
  "\n## 📋 Test Your Knowledge\n\n" ++ joinBlankLine (quizItems a b c d) ++ "\n"

/-- Quiz generation of app.py lines 168-186.  `important_words[0]` and
`important_words[1]` are indexed with no guard, so the f-string raises
`IndexError` (modelled as `none`) when fewer than 2 distinct words exist;
indices 2 and 3 are guarded by `len(important_words) > 2` / `> 3` with the
fallback labels `'Topic'` / `'Discussion'`. -/
def quizBlock (t : String) : Option String :=
  let iw := important_words t
  match iw.get? 0, iw.get? 1 with
  | some w0, some w1 =>
    some (mkQuiz (pyCapitalize w0) (pyCapitalize w1)
      (if 2 < iw.length then pyCapitalize (iw.getD 2 "") else "Topic")
      (if 3 < iw.length then pyCapitalize (iw.getD 3 "") else "Discussion"))
  | _, _ => none

/-- `summary_text` of app.py lines 155-160: the summarizer outcome, or the
fixed placeholder when the external call failed. -/
def summaryTextOf (o : Except String String) : String :=
  match o with
  | Except.ok s => s
  | Except.error _ => "Summary could not be generated."

/-- The `notes` f-string of app.py lines 188-198. -/
def notesTemplate (summary bullets quiz : String) : String :=
  "\n## 📝 Study Notes\n\n### Executive Summary\n" ++ summary ++
    "\n\n### Key Points\n" ++ bullets ++ "\n\n" ++ quiz ++ "\n"

/-- Embedding of `generate_ai_notes` (app.py lines 141-200).  `o` is the
outcome of the external summarizer call on the truncated transcript; `none`
models the uncaught `IndexError` escaping the function. -/
def generate_ai_notes (o : Except String String) (t : String) : Option String :=
  match quizBlock t with
  | none => none
  | some quiz => some (notesTemplate (summaryTextOf o) (bulletBlock t) quiz)

/-! ## Chunked transcription (app.py lines 98-126)

The audio buffer is represented by its length in milliseconds (`len(audio)`
in pydub is the duration in ms); the external `recognize_google` call on a
window is an outcome parameter. -/

/-- `chunk_ms = 30_000` (app.py line 99). -/
def chunkMs : Nat := 30000

/-- `max_chunks = 10` (app.py line 101). -/
def maxChunks : Nat := 10

/-- `num_chunks = (total_len + chunk_ms - 1) // chunk_ms` (app.py line 103). -/
def numChunks (totalLen : Nat) : Nat :=
  (totalLen + chunkMs - 1) / chunkMs

/-- The `(start, end)` windows of the loop at app.py lines 104-107:
`start = i * chunk_ms`, `end = min(start + chunk_ms, total_len)`, for
`i in range(min(num_chunks, max_chunks))`. -/
def chunkWindows (totalLen : Nat) : List (Nat × Nat) :=
  (List.range (min (numChunks totalLen) maxChunks)).map
    (fun i => (i * chunkMs, min (i * chunkMs + chunkMs) totalLen))

/-- Outcome of the external `recognizer.recognize_google` call on one
window (app.py lines 113-121). -/
inductive RecogOutcome where
  | success (text : String)
  | unknownValue
  | requestError (msg : String)
deriving DecidableEq

/-- The loop body of app.py lines 104-121: per-window success appends the
text, `sr.UnknownValueError` appends the placeholder and continues,
`sr.RequestError` returns the error string immediately. -/
def runChunks (recognize : Nat × Nat → RecogOutcome) : List (Nat × Nat) → Except String (List String)
  | [] => Except.ok []
  | w :: ws =>
    match recognize w with
    | RecogOutcome.success t => (runChunks recognize ws).map (fun ts => t :: ts)
    | RecogOutcome.unknownValue => (runChunks recognize ws).map (fun ts => "[Unintelligible]" :: ts)
    | RecogOutcome.requestError m => Except.error ("❌ recognition request failed: " ++ m)

/-- The text contributed by one window when its outcome is non-fatal (the
`requestError` branch is never reached under the no-failure hypotheses that
use this function). -/
def chunkText (recognize : Nat × Nat → RecogOutcome) (w : Nat × Nat) : String :=
  match recognize w with
  | RecogOutcome.success t => t
  | RecogOutcome.unknownValue => "[Unintelligible]"
  | RecogOutcome.requestError _ => ""

/-- The truncation notice of app.py line 125, parameterized by the seconds
figure spliced into the format string. -/
def truncationNotice (n : Nat) : String :=
  " [Note: Transcript truncated - first " ++ toString n ++ " seconds only]"

/-- The chunk-and-recognize phase of `transcribe_audio` (app.py lines 98-126),
from the normalized buffer length to the returned transcript or error
string. -/
def transcribeFromChunks (recognize : Nat × Nat → RecogOutcome) (totalLen : Nat) :
    Except String String :=
  match runChunks recognize (chunkWindows totalLen) with
  | Except.error e => Except.error e
  | Except.ok texts =>
    Except.ok (joinSp texts ++
      if numChunks totalLen > maxChunks then truncationNotice (maxChunks * (chunkMs / 1000)) else "")

/-! ## YouTube transcript fetching (app.py lines 255-288)

The primary fetch, the track list and each per-track fetch are external
calls, passed in as outcomes.  A fetched transcript is its list of snippet
texts; app.py line 279 joins them with spaces. -/

/-- The error categories distinguished by the handlers at app.py lines
281-288. -/
inductive YtError where
  | transcriptsDisabled
  | noTranscriptFound
  | couldNotRetrieve (msg : String)
  | videoUnavailable
  | other (msg : String)
deriving DecidableEq

/-- The tuple of the `except` clause at app.py line 263:
`(NoTranscriptFound, CouldNotRetrieveTranscript, TranscriptsDisabled)`.
(The library's exception hierarchy can widen what `isinstance` accepts here;
the claims settled below only concern these three conditions.) -/
def isFallbackErr : YtError → Bool
  | YtError.noTranscriptFound => true
  | YtError.couldNotRetrieve _ => true
  | YtError.transcriptsDisabled => true
  | _ => false

/-- The fallback loop of app.py lines 265-273: `data = None`; for each track
try `t.fetch()`; a raising fetch is skipped (`continue`); a successful fetch
assigns `data` and breaks only `if data` is truthy (non-empty).  Returns the
final value of `data`. -/
def tryTracks : List (Except Unit (List String)) → Option (List String) → Option (List String)
  | [], acc => acc
  | t :: ts, acc =>
    match t with
    | Except.error _ => tryTracks ts acc
    | Except.ok d => if d ≠ [] then some d else tryTracks ts (some d)

/-- `" ".join(item.text for item in data)` (app.py line 279). -/
def joinSnippets (d : List String) : String :=
  joinSp d

/-- The fetch-with-fallback flow of app.py lines 259-279: on a primary
success join its snippets; on a fallback-category failure run the track loop,
re-raising the original error (`raise`, line 276) only when `data is None`;
any other failure propagates. -/
def fetchWithFallback (primary : Except YtError (List String))
    (tracks : List (Except Unit (List String))) : Except YtError String :=
  match primary with
  | Except.ok d => Except.ok (joinSnippets d)
  | Except.error e =>
    if isFallbackErr e then
      match tryTracks tracks none with
      | none => Except.error e
      | some d => Except.ok (joinSnippets d)
    else Except.error e

/-- Spec-side selection for C8 (stated from the claim text): the first track
whose fetch succeeds, regardless of whether its snippet list is empty. -/
def firstFetchSuccess : List (Except Unit (List String)) → Option (List String)
  | [] => none
  | Except.ok d :: _ => some d
  | Except.error _ :: ts => firstFetchSuccess ts

/-- The per-category messages of the handlers at app.py lines 281-288. -/
def ytErrorMessage : YtError → String
  | YtError.transcriptsDisabled => "Transcripts are disabled for this video."
  | YtError.videoUnavailable => "Video unavailable — check the URL or region restrictions."
  | YtError.noTranscriptFound => "No transcript found for this video. It may not have captions (CC)."
  | YtError.couldNotRetrieve m => "Could not get transcript: " ++ m
  | YtError.other m => "Could not get transcript: " ++ m

/-! ## Audio normalization (app.py line 96)

`audio = audio.set_frame_rate(16000).set_channels(1)`.  The conversions are
performed by the external pydub library. -/

/-- A decoded audio buffer: sample rate, channel count and interleaved
samples. -/
structure AudioSeg where
  frameRate : Nat
  channels : Nat
  samples : List Int
deriving DecidableEq

/-- Average the samples in groups of `c` (the downmix of interleaved frames
to one channel); groups of one (or fewer) are left as they are. -/
def avgGroups (c : Nat) (l : List Int) : List Int :=
  if h : c ≤ 1 ∨ l.length = 0 then l
  else (((l.take c).foldl (· + ·) 0) / (c : Int)) :: avgGroups c (l.drop c)
termination_by l.length
decreasing_by
  simp only [not_or] at h
  simp only [List.length_drop]
  omega

/-- Modelled from the spec: the external resample step of the decoding
library (`AudioSegment.set_frame_rate`), which produces a buffer at the new
rate whose samples are read off the source at the corresponding positions
(nearest-sample resampling); a degenerate rate leaves the buffer
untouched. -/
def setFrameRateSeg (newRate : Nat) (a : AudioSeg) : AudioSeg :=
  if a.frameRate = 0 ∨ newRate = 0 then a
  else
    { frameRate := newRate
      channels := a.channels
      samples := (List.range (a.samples.length * newRate / a.frameRate)).map
        (fun i => a.samples.getD (i * a.frameRate / newRate) 0) }

/-- Modelled from the spec: the external downmix step of the decoding library
(`AudioSegment.set_channels`), which returns the buffer unchanged when it
already has the requested channel count and otherwise averages each
interleaved frame down to one channel. -/
def setChannelsSeg (newCh : Nat) (a : AudioSeg) : AudioSeg :=
  if a.channels = newCh then a
  else if newCh = 1 then
    { frameRate := a.frameRate, channels := 1, samples := avgGroups a.channels a.samples }
  else a

/-- The normalization of app.py line 96:
`audio.set_frame_rate(16000).set_channels(1)`. -/
def normalizeSeg (a : AudioSeg) : AudioSeg :=
  setChannelsSeg 1 (setFrameRateSeg 16000 a)

/-! ## Temporary-file effects of `transcribe_audio` (app.py lines 32-139)

The call creates the saved upload temp file (lines 43-45) and, for video
inputs, the extracted-audio WAV (lines 63-64).  The `finally` at lines
128-132 unlinks the upload temp file on every path; the WAV is unlinked only
at lines 67-70, after `AudioSegment.from_file(wav_path)` succeeded. -/

/-- The two temporary files the call can create. -/
inductive TempFile where
  | uploadTemp
  | extractedWav
deriving DecidableEq

/-- How far the video branch (app.py lines 54-72) gets before returning or
falling through.  `VideoFileClip` raising, a missing audio track, and a
failing `write_audiofile` all return before the WAV exists; a failing
`AudioSegment.from_file(wav_path)` returns after the WAV was written. -/
inductive VideoStep where
  | clipFail
  | noAudioTrack
  | writeFail
  | loadWavFail
  | allOk
deriving DecidableEq

/-- The input branch taken by `transcribe_audio`: a video-container extension
(with how far its extraction gets) or a direct audio decode (whose success or
failure never involves the intermediate WAV). -/
inductive InputKind where
  | video (step : VideoStep)
  | direct (decodeOk : Bool)
deriving DecidableEq

/-- The set of existing temporary files, as a state threaded through the
call. -/
structure FsState where
  files : List TempFile
deriving DecidableEq

/-- File creation. -/
def fsCreate (f : TempFile) (st : FsState) : FsState :=
  { files := f :: st.files }

/-- `os.unlink` (the `except: pass` wrappers around it are modelled as the
unlink succeeding). -/
def fsUnlink (f : TempFile) (st : FsState) : FsState :=
  { files := st.files.erase f }

/-- File effects of the video branch, app.py lines 54-72. -/
def videoBranchFs : VideoStep → FsState → FsState
  | VideoStep.clipFail, st => st
  | VideoStep.noAudioTrack, st => st
  | VideoStep.writeFail, st => st
  | VideoStep.loadWavFail, st => fsCreate TempFile.extractedWav st
  | VideoStep.allOk, st => fsUnlink TempFile.extractedWav (fsCreate TempFile.extractedWav st)

/-- File effects of a whole `transcribe_audio` call: save the upload to a
temp file (lines 43-45), run the branch for the input kind, then the
`finally` (lines 128-132) unlinks the upload temp file on every path —
whether the call returned a transcript or an error string. -/
def transcribeFsTrace (k : InputKind) : FsState :=
  let st := fsCreate TempFile.uploadTemp { files := [] }
  let st :=
    match k with
    | InputKind.video s => videoBranchFs s st
    | InputKind.direct _ => st
  fsUnlink TempFile.uploadTemp st

/-- The message shown by tab2 for a fetch result (app.py lines 280-288):
the success banner, or the per-category error message. -/
def reportedMessage (r : Except YtError String) : String :=
  match r with
  | Except.ok _ => "YouTube Transcript retrieved!"
  | Except.error e => ytErrorMessage e

/-- Fixed all-success recognition outcome used by concrete instantiations. -/
def recAllOk : Nat × Nat → RecogOutcome :=
  fun _ => RecogOutcome.success "ok"

/-- Recognition outcome used by concrete instantiations: first window
recognized, second window not understood, any later window a request
failure. -/
def recMixed : Nat × Nat → RecogOutcome :=
  fun w =>
    if w.1 = 0 then RecogOutcome.success "hello"
    else if w.1 = chunkMs then RecogOutcome.unknownValue
    else RecogOutcome.requestError "boom"

/-- Concrete transcript whose fragments after `". "`-splitting are five short
ones followed by a long one. -/
def ex5 : String :=
  "a. b. c. d. e. this fragment is longer than twenty characters"

/-- Concrete transcript of 901 words: 900 copies of `a` followed by one long
word that only appears after the 900-word truncation point. -/
def ex4 : String :=
  joinSp (List.replicate 900 "a" ++ ["extraordinarily"])

/-- A word list is join-splittable when every word is nonempty and free of
whitespace (as the output of Python `split()` always is). -/
def solidWord (w : String) : Prop :=
  w.data ≠ [] ∧ ∀ c ∈ w.data, c.isWhitespace = false

/-! ## Helper lemmas -/

theorem runChunks_ok (recognize : Nat × Nat → RecogOutcome) (ws : List (Nat × Nat))
    (h : ∀ w ∈ ws, ∀ m, recognize w ≠ RecogOutcome.requestError m) :
    runChunks recognize ws = Except.ok (ws.map (chunkText recognize)) := by
  induction ws with
  | nil => rfl
  | cons w ws ih =>
    have hw := h w (List.mem_cons_self w ws)
    have hrest : ∀ v ∈ ws, ∀ m, recognize v ≠ RecogOutcome.requestError m :=
      fun v hv => h v (List.mem_cons_of_mem w hv)
    cases hrec : recognize w with
    | success t =>
      simp [runChunks, hrec, ih hrest, chunkText, Except.map]
    | unknownValue =>
      simp [runChunks, hrec, ih hrest, chunkText, Except.map]
    | requestError m => exact absurd hrec (hw m)

theorem runChunks_requestError (recognize : Nat × Nat → RecogOutcome)
    (pre : List (Nat × Nat)) (w : Nat × Nat) (post : List (Nat × Nat)) (m : String)
    (hpre : ∀ v ∈ pre, ∀ m2, recognize v ≠ RecogOutcome.requestError m2)
    (hw : recognize w = RecogOutcome.requestError m) :
    runChunks recognize (pre ++ w :: post) =
      Except.error ("❌ recognition request failed: " ++ m) := by
  induction pre with
  | nil => simp [runChunks, hw]
  | cons v pre ih =>
    have hv := hpre v (List.mem_cons_self v pre)
    have hrest : ∀ x ∈ pre, ∀ m2, recognize x ≠ RecogOutcome.requestError m2 :=
      fun x hx => hpre x (List.mem_cons_of_mem v hx)
    cases hrec : recognize v with
    | success t => simp [runChunks, hrec, ih hrest, Except.map]
    | unknownValue => simp [runChunks, hrec, ih hrest, Except.map]
    | requestError m2 => exact absurd hrec (hv m2)

/-! ## C2: chunk count, window shapes and the truncation notice -/

/-- C2: for a normalized buffer of `t` milliseconds, the processed windows are
`min (ceil(t/30000)) 10` in number; window `i` spans `[i*30000, min((i+1)*30000, t))`,
a full 30 seconds whenever it is not the final window of the buffer; and when
`ceil(t/30000) > 10` the returned transcript carries the truncation notice
naming exactly 300 seconds, otherwise no notice is appended. -/
theorem chunking_caps_and_truncates (recognize : Nat × Nat → RecogOutcome) (t : Nat)
    (hok : ∀ w ∈ chunkWindows t, ∀ m, recognize w ≠ RecogOutcome.requestError m) :
    (chunkWindows t).length = min (numChunks t) maxChunks ∧
    (∀ i, (h : i < (chunkWindows t).length) →
      (chunkWindows t).get ⟨i, h⟩ = (i * chunkMs, min (i * chunkMs + chunkMs) t) ∧
      (i + 1 < numChunks t → min (i * chunkMs + chunkMs) t - i * chunkMs = chunkMs) ∧
      min (i * chunkMs + chunkMs) t ≤ t) ∧
    (maxChunks < numChunks t →
      transcribeFromChunks recognize t =
        Except.ok (joinSp ((chunkWindows t).map (chunkText recognize)) ++ truncationNotice 300)) ∧
    (numChunks t ≤ maxChunks →
      transcribeFromChunks recognize t =
        Except.ok (joinSp ((chunkWindows t).map (chunkText recognize)))) := by
  refine ⟨?_, ?_, ?_, ?_⟩
  · simp [chunkWindows]
  · intro i h
    have hget : (chunkWindows t).get ⟨i, h⟩ = (i * chunkMs, min (i * chunkMs + chunkMs) t) := by
      simp [chunkWindows, List.get_eq_getElem]
    refine ⟨hget, ?_, min_le_right _ _⟩
    intro hnext
    have : i * chunkMs + chunkMs ≤ t := by
      simp only [numChunks, chunkMs] at hnext ⊢
      omega
    simp [Nat.min_eq_left this]
  · intro htr
    have h300 : maxChunks * (chunkMs / 1000) = 300 := by decide
    unfold transcribeFromChunks
    rw [runChunks_ok recognize _ hok]
    rw [if_pos htr, h300]
  · intro hle
    unfold transcribeFromChunks
    rw [runChunks_ok recognize _ hok]
    rw [if_neg (Nat.not_lt.mpr hle)]
    simp

/-- Witness for C2 at a 400-second buffer (14 windows, truncated at 10). -/
theorem chunking_caps_and_truncates_witness :
    numChunks 400000 = 14 ∧
    (chunkWindows 400000).length = 10 ∧
    transcribeFromChunks recAllOk 400000 =
      Except.ok (joinSp ((chunkWindows 400000).map (chunkText recAllOk)) ++ truncationNotice 300) := by
  refine ⟨by decide, by decide, ?_⟩
  exact (chunking_caps_and_truncates recAllOk 400000
    (by intro w hw m hc; simp [recAllOk] at hc)).2.2.1 (by decide)

/-! ## C3: per-window ambiguity is non-fatal, per-window request failure is fatal -/

/-- C3: if no window hits a request failure, the loop finishes with one text
per window, an `unknownValue` window contributing the `[Unintelligible]`
placeholder; if some window hits a request failure (all windows before it
being non-fatal), the whole call returns the error string at once and no
transcript — partial or otherwise — is returned. -/
theorem perwindow_failure_handling (recognize : Nat × Nat → RecogOutcome) (t : Nat) :
    ((∀ w ∈ chunkWindows t, ∀ m, recognize w ≠ RecogOutcome.requestError m) →
      runChunks recognize (chunkWindows t) =
        Except.ok ((chunkWindows t).map (chunkText recognize)) ∧
      ∀ w ∈ chunkWindows t, recognize w = RecogOutcome.unknownValue →
        chunkText recognize w = "[Unintelligible]") ∧
    (∀ pre w post m, chunkWindows t = pre ++ w :: post →
      (∀ v ∈ pre, ∀ m2, recognize v ≠ RecogOutcome.requestError m2) →
      recognize w = RecogOutcome.requestError m →
      transcribeFromChunks recognize t =
        Except.error ("❌ recognition request failed: " ++ m)) := by
  constructor
  · intro hok
    refine ⟨runChunks_ok recognize _ hok, ?_⟩
    intro w _ hw
    simp [chunkText, hw]
  · intro pre w post m hsplit hpre hw
    unfold transcribeFromChunks
    rw [hsplit, runChunks_requestError recognize pre w post m hpre hw]

/-- Witness for C3 at a 90-second buffer: the second window is not understood
(placeholder appended, processing continues), and separately a request
failure on the third window aborts with the error string. -/
theorem perwindow_failure_handling_witness :
    runChunks recMixed [(0, 30000), (30000, 60000)] =
      Except.ok ["hello", "[Unintelligible]"] ∧
    transcribeFromChunks recMixed 90000 =
      Except.error ("❌ recognition request failed: " ++ "boom") := by
  constructor
  · rfl
  · refine (perwindow_failure_handling recMixed 90000).2
      [(0, 30000), (30000, 60000)] (60000, 90000) [] "boom" (by decide) ?_ (by decide)
    intro v hv m2 hc
    have hv2 : v = ((0, 30000) : Nat × Nat) ∨ v = ((30000, 60000) : Nat × Nat) := by
      simpa using hv
    rcases hv2 with h | h <;> subst h <;> simp [recMixed, chunkMs] at hc

/-! ## C7: temporary-file cleanup -/

/-- C7 counterexample: on a video input whose extracted WAV fails to load
(`AudioSegment.from_file(wav_path)` raising at app.py line 66), the call
returns the error string of line 72 with the intermediate WAV still on disk —
refuting removal on every path. -/
theorem tempfile_cleanup_counterexample :
    (transcribeFsTrace (InputKind.video VideoStep.loadWavFail)).files = [TempFile.extractedWav] ∧
    TempFile.extractedWav ∈ (transcribeFsTrace (InputKind.video VideoStep.loadWavFail)).files := by
  decide

/-- C7 amended: the saved upload temp file is removed on every path (the
`finally` of app.py lines 128-132); the intermediate WAV is removed on every
path except the one where an exception strikes between its creation and its
unlink — loading the extracted WAV failing — where it is leaked. -/
theorem tempfile_cleanup_amended (k : InputKind) :
    TempFile.uploadTemp ∉ (transcribeFsTrace k).files ∧
    ((transcribeFsTrace k).files = [] ↔ k ≠ InputKind.video VideoStep.loadWavFail) := by
  cases k with
  | video s => cases s <;> decide
  | direct b => cases b <;> decide

/-- Witness for C7 (amended) on a direct-audio input: both temp-file facts
instantiated. -/
theorem tempfile_cleanup_amended_witness :
    TempFile.uploadTemp ∉ (transcribeFsTrace (InputKind.direct true)).files ∧
    (transcribeFsTrace (InputKind.direct true)).files = [] := by
  refine ⟨(tempfile_cleanup_amended (InputKind.direct true)).1, ?_⟩
  exact (tempfile_cleanup_amended (InputKind.direct true)).2.mpr (by decide)

/-! ## C9: normalization is idempotent on canonical buffers -/

theorem range_map_getD (l : List Int) :
    (List.range l.length).map (fun i => l.getD i 0) = l := by
  apply List.ext_getElem
  · simp
  · intro i h1 h2
    simp only [List.getElem_map, List.getElem_range]
    rw [List.getD_eq_getElem l 0 h2]

/-- C9: resampling to 16 kHz and downmixing to mono leaves a buffer that is
already mono at 16000 Hz unchanged. -/
theorem normalize_idempotent (a : AudioSeg) (hch : a.channels = 1)
    (hfr : a.frameRate = 16000) : normalizeSeg a = a := by
  have hfr16 : setFrameRateSeg 16000 a = a := by
    unfold setFrameRateSeg
    rw [if_neg (by simp [hfr])]
    have hlen : a.samples.length * 16000 / a.frameRate = a.samples.length := by
      rw [hfr, Nat.mul_div_cancel _ (by norm_num)]
    have hidx : ∀ i : Nat, i * a.frameRate / 16000 = i := by
      intro i
      rw [hfr, Nat.mul_div_cancel _ (by norm_num)]
    cases a with
    | mk fr ch samples =>
      simp only at hch hfr hlen hidx ⊢
      subst hch hfr
      simp only [AudioSeg.mk.injEq, true_and]
      rw [hlen]
      simp only [hidx]
      exact range_map_getD samples
  unfold normalizeSeg
  rw [hfr16]
  unfold setChannelsSeg
  rw [if_pos hch]

/-- Witness for C9 on a concrete canonical buffer. -/
theorem normalize_idempotent_witness :
    normalizeSeg { frameRate := 16000, channels := 1, samples := [3, -1, 7] } =
      { frameRate := 16000, channels := 1, samples := [3, -1, 7] } :=
  normalize_idempotent { frameRate := 16000, channels := 1, samples := [3, -1, 7] } rfl rfl

/-! ## C6 and C10: the video-id search -/

theorem grab11_append (w suf : List Char) (hlen : w.length = 11)
    (hall : ∀ c ∈ w, isIdChar c) : grab11 (w ++ suf) = some w := by
  have ht : (w ++ suf).take 11 = w := by
    rw [← hlen]
    exact List.take_left w suf
  unfold grab11
  rw [ht, if_pos]
  exact ⟨hlen, by rw [List.all_eq_true]; intro c hc; exact hall c hc⟩

theorem grab11_eq_some {rest w : List Char} (h : grab11 rest = some w) :
    w = rest.take 11 ∧ w.length = 11 ∧ ∀ c ∈ w, isIdChar c := by
  unfold grab11 at h
  split at h
  case isTrue hcond =>
    cases h
    exact ⟨rfl, hcond.1, by simpa [List.all_eq_true] using hcond.2⟩
  case isFalse => cases h

theorem matchVidAt_eq_some {cs w : List Char} :
    matchVidAt cs = some w ↔
      ((∃ suf, cs = ['v', '='] ++ w ++ suf) ∨ (∃ suf, cs = ['/'] ++ w ++ suf)) ∧
      w.length = 11 ∧ ∀ c ∈ w, isIdChar c := by
  constructor
  · intro h
    unfold matchVidAt at h
    split at h
    case isTrue h2 =>
      obtain ⟨hw, hlen, hall⟩ := grab11_eq_some h
      refine ⟨Or.inl ⟨(cs.drop 2).drop 11, ?_⟩, hlen, hall⟩
      conv_lhs => rw [← List.take_append_drop 2 cs]
      rw [h2]
      conv_lhs => rw [← List.take_append_drop 11 (cs.drop 2)]
      rw [← hw]
      simp [List.append_assoc]
    case isFalse h2 =>
      split at h
      case isTrue h1 =>
        obtain ⟨hw, hlen, hall⟩ := grab11_eq_some h
        refine ⟨Or.inr ⟨(cs.drop 1).drop 11, ?_⟩, hlen, hall⟩
        conv_lhs => rw [← List.take_append_drop 1 cs]
        rw [h1]
        conv_lhs => rw [← List.take_append_drop 11 (cs.drop 1)]
        rw [← hw]
        simp [List.append_assoc]
      case isFalse => cases h
  · rintro ⟨hcase, hlen, hall⟩
    rcases hcase with ⟨suf, rfl⟩ | ⟨suf, rfl⟩
    · unfold matchVidAt
      rw [if_pos (by rfl)]
      exact grab11_append w suf hlen hall
    · unfold matchVidAt
      rw [if_neg, if_pos (by rfl)]
      · exact grab11_append w suf hlen hall
      · intro hcon
        have : ('/' : Char) = 'v' := by
          have h2 : (['/'] ++ w ++ suf).take 2 = '/' :: (w ++ suf).take 1 := rfl
          rw [h2] at hcon
          exact (List.cons_eq_cons.mp hcon).1
        simp at this

theorem searchVidAux_leftmost (cs : List Char) (i : Nat) (w : List Char)
    (hmatch : matchVidAt (cs.drop i) = some w)
    (hbefore : ∀ j, j < i → matchVidAt (cs.drop j) = none) :
    searchVidAux cs = some w := by
  induction cs generalizing i with
  | nil =>
    rw [List.drop_nil] at hmatch
    rw [show matchVidAt [] = none from rfl] at hmatch
    cases hmatch
  | cons c cs ih =>
    cases i with
    | zero =>
      rw [List.drop_zero] at hmatch
      unfold searchVidAux
      rw [hmatch]
    | succ k =>
      have h0 : matchVidAt (c :: cs) = none := by
        simpa using hbefore 0 (Nat.succ_pos k)
      unfold searchVidAux
      rw [h0]
      exact ih k (by simpa using hmatch) (fun j hj => by simpa using hbefore (j + 1) (by omega))

theorem searchVidAux_complete (cs : List Char) (i : Nat) (w : List Char)
    (hmatch : matchVidAt (cs.drop i) = some w) : (searchVidAux cs).isSome := by
  induction cs generalizing i with
  | nil =>
    rw [List.drop_nil] at hmatch
    rw [show matchVidAt [] = none from rfl] at hmatch
    cases hmatch
  | cons c cs ih =>
    unfold searchVidAux
    cases hhead : matchVidAt (c :: cs) with
    | some v => rfl
    | none =>
      cases i with
      | zero =>
        rw [List.drop_zero] at hmatch
        rw [hhead] at hmatch
        cases hmatch
      | succ k => exact ih k (by simpa using hmatch)

theorem searchVidAux_sound (cs : List Char) (w : List Char)
    (h : searchVidAux cs = some w) : ∃ i, matchVidAt (cs.drop i) = some w := by
  induction cs with
  | nil => cases h
  | cons c cs ih =>
    unfold searchVidAux at h
    cases hhead : matchVidAt (c :: cs) with
    | some v =>
      rw [hhead] at h
      cases h
      exact ⟨0, hhead⟩
    | none =>
      rw [hhead] at h
      obtain ⟨i, hi⟩ := ih h
      exact ⟨i + 1, by simpa using hi⟩

/-- C6: `extract_video_id` returns a (non-null) id exactly when the input
contains a `v=` or `/` prefix immediately followed by 11 characters of the
class `[0-9A-Za-z_-]`, and any returned id is 11 such characters. -/
theorem extract_id_iff_pattern (s : String) :
    ((extract_video_id s).isSome ↔ containsVidPattern s) ∧
    (∀ c, extract_video_id s = some c → c.length = 11 ∧ ∀ ch ∈ c.data, isIdChar ch) := by
  constructor
  · constructor
    · intro h
      obtain ⟨w, hw⟩ : ∃ w, searchVidAux s.data = some w := by
        unfold extract_video_id at h
        cases hs : searchVidAux s.data with
        | some v => exact ⟨v, rfl⟩
        | none => rw [hs] at h; cases h
      obtain ⟨i, hi⟩ := searchVidAux_sound s.data w hw
      obtain ⟨hcase, hlen, hall⟩ := matchVidAt_eq_some.mp hi
      rcases hcase with ⟨suf, hsuf⟩ | ⟨suf, hsuf⟩
      · refine ⟨s.data.take i, w, suf, Or.inl ?_, hlen, hall⟩
        conv_lhs => rw [← List.take_append_drop i s.data]
        rw [hsuf]
        simp [List.append_assoc]
      · refine ⟨s.data.take i, w, suf, Or.inr ?_, hlen, hall⟩
        conv_lhs => rw [← List.take_append_drop i s.data]
        rw [hsuf]
        simp [List.append_assoc]
    · rintro ⟨pre, w, suf, hcase, hlen, hall⟩
      have hm : matchVidAt (s.data.drop pre.length) = some w := by
        rcases hcase with hc | hc
        · rw [hc]
          rw [show pre ++ ['v', '='] ++ w ++ suf = pre ++ (['v', '='] ++ w ++ suf) by
            simp [List.append_assoc]]
          rw [List.drop_left]
          exact matchVidAt_eq_some.mpr ⟨Or.inl ⟨suf, rfl⟩, hlen, hall⟩
        · rw [hc]
          rw [show pre ++ ['/'] ++ w ++ suf = pre ++ (['/'] ++ w ++ suf) by
            simp [List.append_assoc]]
          rw [List.drop_left]
          exact matchVidAt_eq_some.mpr ⟨Or.inr ⟨suf, rfl⟩, hlen, hall⟩
      have hs := searchVidAux_complete s.data pre.length w hm
      unfold extract_video_id
      cases hsv : searchVidAux s.data with
      | some v => rfl
      | none => rw [hsv] at hs; simp at hs
  · intro c hc
    obtain ⟨w, hw, hcw⟩ : ∃ w, searchVidAux s.data = some w ∧ c = String.mk w := by
      unfold extract_video_id at hc
      cases hs : searchVidAux s.data with
      | some v =>
        rw [hs] at hc
        exact ⟨v, rfl, (Option.some_inj.mp hc).symm⟩
      | none => rw [hs] at hc; cases hc
    obtain ⟨i, hi⟩ := searchVidAux_sound s.data w hw
    obtain ⟨_, hlen, hall⟩ := matchVidAt_eq_some.mp hi
    subst hcw
    exact ⟨hlen, hall⟩

/-- Witness for C6 on a short-form URL. -/
theorem extract_id_iff_pattern_witness :
    ("dQw4w9WgXcQ" : String).length = 11 ∧
    ∀ ch ∈ ("dQw4w9WgXcQ" : String).data, isIdChar ch :=
  (extract_id_iff_pattern "https://youtu.be/dQw4w9WgXcQ").2 "dQw4w9WgXcQ" (by decide)

/-- C10: `extract_video_id` returns the capture of the leftmost position at
which the pattern matches — so an 11-character path segment occurring before
the `v=` parameter wins over the `v=` value. -/
theorem extract_id_leftmost (s : String) (i : Nat) (w : List Char)
    (hmatch : matchVidAt (s.data.drop i) = some w)
    (hbefore : ∀ j, j < i → matchVidAt (s.data.drop j) = none) :
    extract_video_id s = some (String.mk w) := by
  unfold extract_video_id
  rw [searchVidAux_leftmost s.data i w hmatch hbefore]
  rfl

/-- Witness for C10: the path segment `ABCDEFGHIJK` (at position 11, after
the first slash with 11 identifier characters behind it) beats the later
`v=LMNOPQRSTUV`. -/
theorem extract_id_leftmost_witness :
    extract_video_id "youtube.com/ABCDEFGHIJK?v=LMNOPQRSTUV" = some "ABCDEFGHIJK" := by
  have h := extract_id_leftmost "youtube.com/ABCDEFGHIJK?v=LMNOPQRSTUV" 11
    ("ABCDEFGHIJK" : String).data (by decide) (by decide)
  simpa using h

/-! ## C8: caption-track fallback -/

theorem tryTracks_firstNonempty (pre : List (Except Unit (List String))) (d : List String)
    (post : List (Except Unit (List String))) (hd : d ≠ [])
    (hpre : ∀ x ∈ pre, ∀ d2, x = Except.ok d2 → d2 = []) :
    ∀ acc, tryTracks (pre ++ Except.ok d :: post) acc = some d := by
  induction pre with
  | nil =>
    intro acc
    simp [tryTracks, hd]
  | cons x pre ih =>
    intro acc
    have hrest : ∀ y ∈ pre, ∀ d2, y = Except.ok d2 → d2 = [] :=
      fun y hy => hpre y (List.mem_cons_of_mem x hy)
    cases x with
    | error u =>
      rw [List.cons_append]
      exact ih hrest acc
    | ok d2 =>
      have h2 : d2 = [] := hpre (Except.ok d2) (List.mem_cons_self _ pre) d2 rfl
      subst h2
      rw [List.cons_append]
      show tryTracks (Except.ok [] :: (pre ++ Except.ok d :: post)) acc = some d
      simp [tryTracks]
      exact ih hrest (some [])

theorem tryTracks_allError (ts : List (Except Unit (List String)))
    (h : ∀ x ∈ ts, ∀ d, x ≠ Except.ok d) : ∀ acc, tryTracks ts acc = acc := by
  induction ts with
  | nil => intro acc; rfl
  | cons x ts ih =>
    intro acc
    cases x with
    | error u =>
      exact ih (fun y hy => h y (List.mem_cons_of_mem _ hy)) acc
    | ok d => exact absurd rfl (h (Except.ok d) (List.mem_cons_self _ ts) d)

theorem tryTracks_allEmptySuccess (ts : List (Except Unit (List String)))
    (hall : ∀ x ∈ ts, ∀ d, x = Except.ok d → d = []) :
    ∀ acc, (acc = some [] ∨ ∃ x ∈ ts, x = Except.ok ([] : List String)) →
      tryTracks ts acc = some [] := by
  induction ts with
  | nil =>
    intro acc hacc
    rcases hacc with h | ⟨x, hx, _⟩
    · simpa [tryTracks] using h
    · cases hx
  | cons t ts ih =>
    intro acc hacc
    have hrest : ∀ x ∈ ts, ∀ d, x = Except.ok d → d = [] :=
      fun x hx => hall x (List.mem_cons_of_mem t hx)
    cases t with
    | error u =>
      refine ih hrest acc ?_
      rcases hacc with h | ⟨x, hx, hx2⟩
      · exact Or.inl h
      · rcases List.mem_cons.mp hx with h | h
        · subst h; cases hx2
        · exact Or.inr ⟨x, h, hx2⟩
    | ok d =>
      have h2 : d = [] := hall (Except.ok d) (List.mem_cons_self _ ts) d rfl
      subst h2
      show tryTracks (Except.ok [] :: ts) acc = some []
      simp [tryTracks]
      exact ih hrest (some []) (Or.inl rfl)

/-- C8 counterexample: with tracks `[fetch succeeds with empty snippets,
fetch succeeds with "hello"]`, the code returns the second track's text —
not the joined text of the first track that fetches successfully (the empty
one) — and with a single successful-but-empty track it returns an empty
transcript instead of re-raising the original failure. -/
theorem yt_fallback_counterexample :
    fetchWithFallback (Except.error YtError.noTranscriptFound)
      [Except.ok [], Except.ok ["hello"]] = Except.ok "hello" ∧
    firstFetchSuccess [Except.ok [], Except.ok ["hello"]] = some ([] : List String) ∧
    joinSnippets [] = "" ∧
    ("hello" : String) ≠ "" ∧
    fetchWithFallback (Except.error YtError.noTranscriptFound) [Except.ok ([] : List String)] =
      Except.ok "" := by
  exact ⟨rfl, rfl, rfl, by decide, rfl⟩

/-- C8 amended: on a fallback-category failure, the code returns the joined
text of the first track that fetches successfully with non-empty snippets
(tracks that fetch successfully but empty are skipped); if every track's
fetch raises, the original failure is re-raised and reported under its
category; and if no track yields data but some fetched successfully empty,
an empty transcript is returned without re-raising. -/
theorem yt_fallback_amended (e : YtError) (tracks : List (Except Unit (List String)))
    (he : isFallbackErr e = true) :
    (∀ pre d post, tracks = pre ++ Except.ok d :: post → d ≠ [] →
      (∀ x ∈ pre, ∀ d2, x = Except.ok d2 → d2 = []) →
      fetchWithFallback (Except.error e) tracks = Except.ok (joinSnippets d)) ∧
    ((∀ x ∈ tracks, ∀ d, x ≠ Except.ok d) →
      fetchWithFallback (Except.error e) tracks = Except.error e ∧
      reportedMessage (fetchWithFallback (Except.error e) tracks) = ytErrorMessage e) ∧
    ((∀ x ∈ tracks, ∀ d, x = Except.ok d → d = []) →
      (∃ x ∈ tracks, x = Except.ok ([] : List String)) →
      fetchWithFallback (Except.error e) tracks = Except.ok "") := by
  refine ⟨?_, ?_, ?_⟩
  · intro pre d post htr hd hpre
    show (if isFallbackErr e = true then _ else _) = _
    rw [if_pos he, htr, tryTracks_firstNonempty pre d post hd hpre none]
  · intro hall
    have hres : fetchWithFallback (Except.error e) tracks = Except.error e := by
      show (if isFallbackErr e = true then _ else _) = _
      rw [if_pos he, tryTracks_allError tracks hall none]
    exact ⟨hres, by rw [hres]; rfl⟩
  · intro hall hex
    show (if isFallbackErr e = true then _ else _) = _
    rw [if_pos he, tryTracks_allEmptySuccess tracks hall none (Or.inr hex)]
    rfl

/-- Witness for C8: a raising track followed by a non-empty one yields the
non-empty one's text; a lone raising track re-raises the original
`TranscriptsDisabled`, reported under its category. -/
theorem yt_fallback_amended_witness :
    fetchWithFallback (Except.error YtError.noTranscriptFound)
      [Except.error (), Except.ok ["hi"]] = Except.ok (joinSnippets ["hi"]) ∧
    fetchWithFallback (Except.error YtError.transcriptsDisabled) [Except.error ()] =
      Except.error YtError.transcriptsDisabled ∧
    reportedMessage
      (fetchWithFallback (Except.error YtError.transcriptsDisabled) [Except.error ()]) =
      ytErrorMessage YtError.transcriptsDisabled := by
  refine ⟨?_, ?_, ?_⟩
  · refine (yt_fallback_amended YtError.noTranscriptFound
      [Except.error (), Except.ok ["hi"]] rfl).1 [Except.error ()] ["hi"] [] rfl (by decide) ?_
    intro x hx d2 hd2
    have hx2 : x = Except.error () := by simpa using hx
    subst hx2
    cases hd2
  · exact ((yt_fallback_amended YtError.transcriptsDisabled [Except.error ()] rfl).2.1
      (by intro x hx d hd; have hx2 : x = Except.error () := by simpa using hx
          subst hx2; cases hd)).1
  · exact ((yt_fallback_amended YtError.transcriptsDisabled [Except.error ()] rfl).2.1
      (by intro x hx d hd; have hx2 : x = Except.error () := by simpa using hx
          subst hx2; cases hd)).2

/-! ## C1: quiz generation on transcripts with few distinct words -/

theorem insertWordDesc_length (x : String) (l : List String) :
    (insertWordDesc x l).length = l.length + 1 := by
  induction l with
  | nil => rfl
  | cons y ys ih =>
    unfold insertWordDesc
    split
    · simp [ih]
    · simp

theorem sortWordsDesc_length (l : List String) : (sortWordsDesc l).length = l.length := by
  suffices h : ∀ acc : List String,
      (l.foldl (fun a x => insertWordDesc x a) acc).length = acc.length + l.length by
    simpa using h []
  induction l with
  | nil => intro acc; simp
  | cons x xs ih =>
    intro acc
    rw [List.foldl_cons, ih (insertWordDesc x acc), insertWordDesc_length]
    simp only [List.length_cons]
    omega

theorem important_words_length (t : String) :
    (important_words t).length = min (distinctWordCount t) 10 := by
  unfold important_words importantWordsOf distinctWordCount
  rw [List.length_take, sortWordsDesc_length, Nat.min_comm]

/-- C1 counterexample: the one-word transcript `hi` has fewer than 4 distinct
words, yet `generate_ai_notes` hits the unguarded `important_words[1]` of the
quiz f-string and raises `IndexError` (modelled as `none`) instead of
returning 3 questions. -/
theorem quiz_fallback_counterexample :
    distinctWordCount "hi" < 4 ∧ generate_ai_notes (Except.ok "S") "hi" = none := by
  exact ⟨by decide, rfl⟩

/-- C1 amended: for a transcript whose (possibly truncated) text has 2 or 3
distinct lowercased words, quiz generation returns the fixed 3-question
template with the generic fallback labels substituted for the missing 3rd/4th
important words; with fewer than 2 distinct words, the unguarded indexing
fails and `generate_ai_notes` raises instead of returning. -/
theorem quiz_fallback_amended (o : Except String String) (t : String) :
    (2 ≤ distinctWordCount t → distinctWordCount t < 4 →
      generate_ai_notes o t =
        some (notesTemplate (summaryTextOf o) (bulletBlock t)
          (mkQuiz (pyCapitalize ((important_words t).getD 0 ""))
            (pyCapitalize ((important_words t).getD 1 ""))
            (if 2 < distinctWordCount t then pyCapitalize ((important_words t).getD 2 "")
             else "Topic")
            "Discussion")) ∧
      (quizItems (pyCapitalize ((important_words t).getD 0 ""))
        (pyCapitalize ((important_words t).getD 1 "")) "Topic" "Discussion").length = 3) ∧
    (distinctWordCount t < 2 → generate_ai_notes o t = none) := by
  constructor
  · intro h2 h4
    refine ⟨?_, rfl⟩
    have hn : (important_words t).length = distinctWordCount t := by
      rw [important_words_length]
      omega
    unfold generate_ai_notes quizBlock
    rcases hiw : important_words t with _ | ⟨w0, tl0⟩
    · rw [hiw] at hn
      simp at hn
      omega
    rcases tl0 with _ | ⟨w1, tl1⟩
    · rw [hiw] at hn
      simp at hn
      omega
    rcases tl1 with _ | ⟨w2, tl2⟩
    · have hdc : distinctWordCount t = 2 := by
        rw [hiw] at hn
        simpa using hn.symm
      simp [hiw, hdc]
    rcases tl2 with _ | ⟨w3, tl3⟩
    · have hdc : distinctWordCount t = 3 := by
        rw [hiw] at hn
        simpa using hn.symm
      simp [hiw, hdc]
    · rw [hiw] at hn
      simp at hn
      omega
  · intro h2
    have hn : (important_words t).length = distinctWordCount t := by
      rw [important_words_length]
      omega
    unfold generate_ai_notes quizBlock
    rcases hiw : important_words t with _ | ⟨w0, tl0⟩
    · simp [hiw]
    rcases tl0 with _ | ⟨w1, tl1⟩
    · simp [hiw]
    · rw [hiw] at hn
      simp at hn
      omega

/-- Witness for C1 (amended) on a two-distinct-word transcript. -/
theorem quiz_fallback_amended_witness :
    generate_ai_notes (Except.ok "S") "aa bb" =
      some (notesTemplate (summaryTextOf (Except.ok "S")) (bulletBlock "aa bb")
        (mkQuiz (pyCapitalize ((important_words "aa bb").getD 0 ""))
          (pyCapitalize ((important_words "aa bb").getD 1 ""))
          "Topic" "Discussion")) := by
  have hdc : distinctWordCount "aa bb" = 2 := by decide
  have h := ((quiz_fallback_amended (Except.ok "S") "aa bb").1 (by decide) (by decide)).1
  rw [hdc] at h
  simpa using h

/-! ## C5: bullet extraction -/

/-- C5 counterexample: five short fragments followed by one long fragment
produce no bullets at all — although a fragment longer than 20 characters
exists — because the code takes the first 5 fragments before filtering,
while the claim's selection of the first 5 long fragments would keep it. -/
theorem bullets_counterexample :
    keyPointsOf ex5 = [] ∧
    specKeyPoints ex5 = ["this fragment is longer than twenty characters."] ∧
    (splitDotSp ex5).filter (fun s => 20 < (pyStrip s).length) ≠ [] := by
  exact ⟨rfl, rfl, by decide⟩

/-- C5 amended: bullet extraction splits on `". "`, considers only the first
5 fragments and keeps those whose stripped length exceeds 20 characters, in
original order — so there are at most 5 bullets, each arising from a long
fragment among the first five, and no fragment of 20 or fewer characters
ever appears. -/
theorem bullets_amended (u : String) :
    (keyPointsOf u).length ≤ 5 ∧
    List.Sublist (keyPointsOf u) (((splitDotSp u).take 5).map (fun s => pyStrip s ++ ".")) ∧
    (∀ b ∈ keyPointsOf u, ∃ s ∈ (splitDotSp u).take 5,
      20 < (pyStrip s).length ∧ b = pyStrip s ++ ".") := by
  refine ⟨?_, ?_, ?_⟩
  · unfold keyPointsOf
    rw [List.length_map]
    calc (((splitDotSp u).take 5).filter (fun s => 20 < (pyStrip s).length)).length
        ≤ ((splitDotSp u).take 5).length := List.length_filter_le _ _
      _ ≤ 5 := by rw [List.length_take]; omega
  · unfold keyPointsOf
    exact List.Sublist.map _ (List.filter_sublist _)
  · intro b hb
    unfold keyPointsOf at hb
    rw [List.mem_map] at hb
    obtain ⟨s, hs, rfl⟩ := hb
    rw [List.mem_filter] at hs
    exact ⟨s, hs.1, by simpa using hs.2, rfl⟩

/-- Witness for C5 (amended) on a transcript with one long and one short
fragment. -/
theorem bullets_amended_witness :
    (keyPointsOf "A long enough first fragment for the test. b").length ≤ 5 ∧
    ∃ s ∈ (splitDotSp "A long enough first fragment for the test. b").take 5,
      20 < (pyStrip s).length ∧
      "A long enough first fragment for the test." = pyStrip s ++ "." := by
  constructor
  · exact (bullets_amended "A long enough first fragment for the test. b").1
  · exact (bullets_amended "A long enough first fragment for the test. b").2.2
      "A long enough first fragment for the test." (by decide)

/-! ## C4: the quiz words come from the truncated transcript -/

theorem strMk_append (a b : List Char) : String.mk (a ++ b) = String.mk a ++ String.mk b :=
  rfl

theorem splitWsAux_solid (w : List Char) (hw : ∀ c ∈ w, c.isWhitespace = false) :
    ∀ rest acc, splitWsAux (w ++ rest) acc = splitWsAux rest (w.reverse ++ acc) := by
  induction w with
  | nil =>
    intro rest acc
    simp
  | cons c cs ih =>
    intro rest acc
    have hc : c.isWhitespace = false := hw c (List.mem_cons_self c cs)
    have hrest : ∀ x ∈ cs, x.isWhitespace = false :=
      fun x hx => hw x (List.mem_cons_of_mem c hx)
    rw [List.cons_append]
    show (if c.isWhitespace = true then
            if acc.isEmpty = true then splitWsAux (cs ++ rest) []
            else String.mk acc.reverse :: splitWsAux (cs ++ rest) []
          else splitWsAux (cs ++ rest) (c :: acc)) = splitWsAux rest ((c :: cs).reverse ++ acc)
    rw [if_neg (by simp [hc])]
    rw [ih hrest rest (c :: acc)]
    have hacc : (c :: cs).reverse ++ acc = cs.reverse ++ (c :: acc) := by
      simp [List.reverse_cons, List.append_assoc]
    rw [hacc]

theorem splitWs_joinSp (ws : List String) (hws : ∀ w ∈ ws, solidWord w) :
    pySplitWs (joinSp ws) = ws := by
  induction ws with
  | nil => rfl
  | cons w ws ih =>
    cases ws with
    | nil =>
      obtain ⟨hne, hsolid⟩ := hws w (List.mem_cons_self w [])
      show splitWsAux (joinSp [w]).data [] = [w]
      rw [show joinSp [w] = w from rfl]
      have h := splitWsAux_solid w.data hsolid [] []
      rw [List.append_nil] at h
      rw [h]
      unfold splitWsAux
      rw [List.append_nil]
      rw [if_neg (by simpa [List.isEmpty_iff] using fun hcon => hne (by simpa using hcon))]
      rw [List.reverse_reverse]
    | cons w2 ws2 =>
      obtain ⟨hne, hsolid⟩ := hws w (List.mem_cons_self w (w2 :: ws2))
      have hrest : ∀ x ∈ w2 :: ws2, solidWord x :=
        fun x hx => hws x (List.mem_cons_of_mem w hx)
      show pySplitWs (w ++ " " ++ joinSp (w2 :: ws2)) = w :: w2 :: ws2
      unfold pySplitWs
      rw [show (w ++ " " ++ joinSp (w2 :: ws2)).data =
            w.data ++ (' ' :: (joinSp (w2 :: ws2)).data) by simp [String.data_append]]
      rw [splitWsAux_solid w.data hsolid _ []]
      unfold splitWsAux
      rw [if_pos (by decide)]
      rw [List.append_nil]
      rw [if_neg (by simpa [List.isEmpty_iff] using fun hcon => hne (by simpa using hcon))]
      rw [List.reverse_reverse]
      show w :: pySplitWs (joinSp (w2 :: ws2)) = w :: w2 :: ws2
      rw [ih hrest]

theorem pyLower_joinSp (ws : List String) : pyLower (joinSp ws) = joinSp (ws.map pyLower) := by
  induction ws with
  | nil => rfl
  | cons w ws ih =>
    cases ws with
    | nil => rfl
    | cons w2 ws2 =>
      show pyLower (w ++ " " ++ joinSp (w2 :: ws2)) =
        pyLower w ++ " " ++ joinSp ((w2 :: ws2).map pyLower)
      unfold pyLower
      rw [show (w ++ " " ++ joinSp (w2 :: ws2)).data =
            w.data ++ (' ' :: (joinSp (w2 :: ws2)).data) by simp [String.data_append]]
      rw [List.map_append, show List.map Char.toLower (' ' :: (joinSp (w2 :: ws2)).data) =
            ' ' :: List.map Char.toLower (joinSp (w2 :: ws2)).data by simp]
      rw [strMk_append, show String.mk (' ' :: List.map Char.toLower (joinSp (w2 :: ws2)).data) =
            " " ++ String.mk (List.map Char.toLower (joinSp (w2 :: ws2)).data) from rfl]
      have hih : String.mk (List.map Char.toLower (joinSp (w2 :: ws2)).data) =
          joinSp ((w2 :: ws2).map pyLower) := ih
      rw [hih, String.append_assoc]
      rfl

theorem dedupFirstAux_replicate (n : Nat) (x : String) (seen r : List String) (hx : x ∈ seen) :
    dedupFirstAux seen (List.replicate n x ++ r) = dedupFirstAux seen r := by
  induction n with
  | zero => rfl
  | succ k ih =>
    rw [List.replicate_succ, List.cons_append]
    show (if x ∈ seen then dedupFirstAux seen (List.replicate k x ++ r)
          else x :: dedupFirstAux (x :: seen) (List.replicate k x ++ r)) = dedupFirstAux seen r
    rw [if_pos hx]
    exact ih

/-- C4 counterexample: for the 901-word transcript `ex4` — 900 copies of `a`
then `extraordinarily` — the code computes the quiz words from the truncated
transcript and gets `["a"]`, while tokenizing the full transcript (as the
claim states) would yield `["extraordinarily", "a"]`: a quiz word past the
900-word prefix is lost, refuting "the quiz words may come from anywhere in
the original transcript". -/
theorem quizwords_truncation_counterexample :
    (pySplitWs ex4).length = 901 ∧
    important_words ex4 = ["a"] ∧
    importantWordsOf ex4 = ["extraordinarily", "a"] ∧
    important_words ex4 ≠ importantWordsOf ex4 := by
  have hasolid : solidWord "a" := ⟨by decide, by decide⟩
  have hesolid : solidWord "extraordinarily" := ⟨by decide, by decide⟩
  have hwords : ∀ w ∈ List.replicate 900 "a" ++ ["extraordinarily"], solidWord w := by
    intro w hw
    rcases List.mem_append.mp hw with h | h
    · rw [List.eq_of_mem_replicate h]
      exact hasolid
    · rw [show w = "extraordinarily" by simpa using h]
      exact hesolid
  have hrepsolid : ∀ w ∈ List.replicate 900 "a", solidWord w := by
    intro w hw
    rw [List.eq_of_mem_replicate hw]
    exact hasolid
  have hsplit : pySplitWs ex4 = List.replicate 900 "a" ++ ["extraordinarily"] :=
    splitWs_joinSp _ hwords
  have hlen : (pySplitWs ex4).length = 901 := by
    rw [hsplit]
    simp
  have htrunc : truncateTranscript ex4 = joinSp (List.replicate 900 "a") := by
    simp only [truncateTranscript]
    rw [hsplit]
    rw [if_pos (by simp)]
    rw [List.take_left' (by simp)]
  have hlowa : pyLower "a" = "a" := by decide
  have hdeduprep : dedupFirst (List.replicate 900 "a") = ["a"] := by
    unfold dedupFirst
    rw [show (900 : Nat) = 899 + 1 from rfl, List.replicate_succ]
    unfold dedupFirstAux
    rw [if_neg (by simp)]
    rw [show List.replicate 899 "a" = List.replicate 899 "a" ++ ([] : List String) by simp]
    rw [dedupFirstAux_replicate 899 "a" ["a"] [] (by simp)]
    rfl
  have himp : important_words ex4 = ["a"] := by
    unfold important_words importantWordsOf
    rw [htrunc, pyLower_joinSp, List.map_replicate, hlowa]
    rw [splitWs_joinSp _ hrepsolid, hdeduprep]
    rfl
  have hdedupfull : dedupFirst (List.replicate 900 "a" ++ ["extraordinarily"]) =
      ["a", "extraordinarily"] := by
    unfold dedupFirst
    rw [show (900 : Nat) = 899 + 1 from rfl, List.replicate_succ, List.cons_append]
    unfold dedupFirstAux
    rw [if_neg (by simp)]
    rw [dedupFirstAux_replicate 899 "a" ["a"] ["extraordinarily"] (by simp)]
    rfl
  have hspec : importantWordsOf ex4 = ["extraordinarily", "a"] := by
    unfold importantWordsOf
    have hex4 : ex4 = joinSp (List.replicate 900 "a" ++ ["extraordinarily"]) := rfl
    rw [hex4, pyLower_joinSp]
    rw [List.map_append, List.map_replicate, hlowa,
      show List.map pyLower ["extraordinarily"] = ["extraordinarily"] from by decide]
    rw [splitWs_joinSp _ hwords, hdedupfull]
    rfl
  refine ⟨hlen, himp, hspec, ?_⟩
  rw [himp, hspec]
  decide

/-- C4 amended: the quiz's important-word list is computed from the
transcript after truncation to its first 900 words; for transcripts of at
most 900 words this coincides with tokenizing the full transcript. -/
theorem quizwords_truncation_amended (t : String) (h : (pySplitWs t).length ≤ 900) :
    important_words t = importantWordsOf t := by
  unfold important_words
  simp only [truncateTranscript]
  rw [if_neg (by omega)]

/-- Witness for C4 (amended) on a two-word transcript. -/
theorem quizwords_truncation_amended_witness :
    important_words "hello world" = importantWordsOf "hello world" :=
  quizwords_truncation_amended "hello world" (by decide)
